import Mathlib

/-!
Verification of the workflow orchestrator (Go sources under `internal/workflow` and
the `workflow` package files): session manager, CI output classification and E2E
failure filtering, agent executor helpers, the confirmation transition, and the
workflow summary formatters. Each definition is a shallow embedding of the
corresponding Go function; doc comments name the source symbol.
-/

namespace ClaudeWorkflow

/-! ## Data model -/

/-- Workflow phases, from the spec data model (section 3). -/
inductive Phase where
  | planning
  | confirmation
  | implementation
  | refactoring
  | createPR
  | ciFix
  | prSplit
  | completed
  | failed
deriving DecidableEq, Repr

/-- Instants of `time.Time` are abstracted as integers; the session manager only
stores and compares them. -/
abbrev Time := Int

/-- Fields of a decoded JSON object, as produced by Go `json.Unmarshal` into
`map[string]interface{}`. The session manager and the tool-input summary only
read string-typed fields, so every non-string value collapses into `other`. -/
inductive JVal where
  | str (s : String)
  | other
deriving DecidableEq, Repr

/-- A decoded JSON object: association list of field names to values. -/
abbrev Chunk := List (String × JVal)

/-- Go pattern `v, ok := chunk[key].(string)` followed by use of `v` guarded by
`ok`: a missing key or a non-string value yields the empty string. -/
def getStringField (chunk : Chunk) (key : String) : String :=
  match chunk.lookup key with
  | some (JVal.str s) => s
  | _ => ""

/-! ## SessionManager (Go file with `ParseSessionID`, `BuildCommandArgs`,
`UpdateStateWithSession`) -/

/-- Go `extractSessionIDFromChunk`: a `result` chunk with a non-empty
`session_id` yields that id; otherwise a `system` chunk with subtype `init` and
a non-empty `session_id` yields that id; otherwise the empty string. -/
def extractSessionIDFromChunk (chunk : Chunk) : String :=
  let chunkType := getStringField chunk "type"
  if chunkType = "result" ∧ getStringField chunk "session_id" ≠ "" then
    getStringField chunk "session_id"
  else if chunkType = "system" ∧ getStringField chunk "subtype" = "init" ∧
      getStringField chunk "session_id" ≠ "" then
    getStringField chunk "session_id"
  else
    ""

/-- Go `ParseSessionID`: the raw output is split into lines and each line is
JSON-decoded; here the stream is given as those per-line decode results
(`none` for a blank or malformed line). The loop returns the first non-empty
id extracted from a chunk; if no chunk yields one, the regex fallback
(`extractSessionIDWithRegex` over the raw output, abstracted as the
`regexFallback` argument) is returned. -/
def ParseSessionID : List (Option Chunk) → String → String
  | [], regexFallback => regexFallback
  | none :: rest, regexFallback => ParseSessionID rest regexFallback
  | some chunk :: rest, regexFallback =>
    let sessionID := extractSessionIDFromChunk chunk
    if sessionID ≠ "" then sessionID else ParseSessionID rest regexFallback

/-- A chunk of type `result` carrying a non-empty `session_id` (claim C1 wording). -/
def isResultChunkWithID (c : Chunk) : Bool :=
  getStringField c "type" == "result" && getStringField c "session_id" != ""

/-- A chunk of type `system` with subtype `init` carrying a non-empty
`session_id` (claim C1 wording). -/
def isInitChunkWithID (c : Chunk) : Bool :=
  getStringField c "type" == "system" && getStringField c "subtype" == "init" &&
    getStringField c "session_id" != ""

/-- The id of the first chunk, in stream order, from which
`extractSessionIDFromChunk` extracts a non-empty id. -/
def firstChunkSessionID (lines : List (Option Chunk)) : Option String :=
  ((lines.filterMap id).map extractSessionIDFromChunk).find? (· != "")

/-- A system/init chunk carrying session id `aaa`. -/
def initChunkA : Chunk :=
  [("type", JVal.str "system"), ("subtype", JVal.str "init"), ("session_id", JVal.str "aaa")]

/-- A result chunk carrying session id `bbb`. -/
def resultChunkB : Chunk := [("type", JVal.str "result"), ("session_id", JVal.str "bbb")]

/-- A stream in which the system/init chunk precedes the result chunk, as in a
real agent stream where `init` is emitted first. -/
def mixedStream : List (Option Chunk) := [some initChunkA, some resultChunkB]

/-- C1 counterexample: a stream holding both a result chunk with session id
`bbb` and a system/init chunk with session id `aaa`, in which the init chunk
comes first. `ParseSessionID` returns `aaa`, the id of the init chunk, not the
id of the result chunk, refuting the claim that result chunks are consulted
before system/init chunks across the whole stream. -/
theorem parseSessionID_init_first_counterexample :
    isInitChunkWithID initChunkA = true ∧
    isResultChunkWithID resultChunkB = true ∧
    getStringField resultChunkB "session_id" = "bbb" ∧
    ParseSessionID mixedStream "" = "aaa" ∧
    ("aaa" : String) ≠ "bbb" := by
  decide

/-- C1 (amended): `ParseSessionID` returns the session id of the first chunk in
stream order that yields one, whether that chunk is a result chunk or a
system/init chunk; the fallback is not consulted in that case. -/
theorem parseSessionID_first_chunk (lines : List (Option Chunk))
    (regexFallback sid : String) (h : firstChunkSessionID lines = some sid) :
    ParseSessionID lines regexFallback = sid := by
  induction lines with
  | nil => simp [firstChunkSessionID] at h
  | cons line rest ih =>
    cases line with
    | none =>
      simp only [firstChunkSessionID, List.filterMap_cons, id] at h
      exact ih h
    | some chunk =>
      simp only [firstChunkSessionID, List.filterMap_cons, id, List.map_cons,
        List.find?_cons] at h
      by_cases hne : extractSessionIDFromChunk chunk = ""
      · rw [ParseSessionID]
        simp only [hne, bne_self_eq_false] at h
        simp only [hne, ne_eq, not_true_eq_false, if_false]
        exact ih h
      · have hb : (extractSessionIDFromChunk chunk != "") = true := bne_iff_ne.mpr hne
        simp only [hb] at h
        rw [ParseSessionID]
        simp only [hne, ne_eq, not_false_eq_true, if_true]
        exact Option.some_inj.mp h

/-- Witness for the amended C1 theorem at the concrete mixed stream. -/
theorem parseSessionID_first_chunk_witness :
    firstChunkSessionID mixedStream = some "aaa" ∧ ParseSessionID mixedStream "" = "aaa" :=
  ⟨by decide, parseSessionID_first_chunk mixedStream "" "aaa" (by decide)⟩

/-- Go constant `ClaudeResumeFlag`. -/
def ClaudeResumeFlag : String := "--resume"

/-- Go `BuildCommandArgs`: the Go `nil` slice is modelled as the empty list. -/
def BuildCommandArgs (sessionID : String) (forceNewSession : Bool) : List String :=
  if forceNewSession || sessionID == "" then []
  else [ClaudeResumeFlag, sessionID]

/-- C6: `BuildCommandArgs` returns exactly `["--resume", sessionID]` when the
session id is non-empty and a new session is not forced, and the nil slice
otherwise. -/
theorem buildCommandArgs_resume_iff (sessionID : String) (forceNewSession : Bool) :
    BuildCommandArgs sessionID forceNewSession =
      if sessionID ≠ "" ∧ forceNewSession = false then ["--resume", sessionID] else [] := by
  cases forceNewSession with
  | true => simp [BuildCommandArgs]
  | false =>
    by_cases h : sessionID = ""
    · simp [BuildCommandArgs, h]
    · simp [BuildCommandArgs, h, ClaudeResumeFlag]

/-- The per-workflow persistent state, from the spec data model (section 3);
fields beyond the session triple witness that the session manager leaves the
rest of the state untouched. -/
structure WorkflowState where
  name : String
  currentPhase : Phase
  worktreePath : String
  sessionID : Option String
  sessionCreatedAt : Option Time
  sessionReuseCount : Int
deriving DecidableEq, Repr

/-- Go `UpdateStateWithSession`: mutates the state behind a pointer; modelled as
a function from the optional pointee to the updated pointee, with `now`
standing for the `time.Now()` call made in the `isNew` branch. -/
def UpdateStateWithSession (state : Option WorkflowState) (sessionID : String)
    (isNew : Bool) (now : Time) : Option WorkflowState :=
  match state with
  | none => none
  | some st =>
    if sessionID = "" then some st
    else if isNew then
      some { st with sessionID := some sessionID, sessionCreatedAt := some now,
                     sessionReuseCount := 0 }
    else
      some { st with sessionID := some sessionID,
                     sessionReuseCount := st.sessionReuseCount + 1 }

/-- C7: for a non-nil state and non-empty session id, reuse (`isNew = false`)
sets the session id, adds exactly one to the reuse count and leaves the
creation time unchanged, while `isNew = true` sets the session id, sets the
creation time to now and resets the reuse count to zero; all other state
fields are untouched in both cases. -/
theorem updateStateWithSession_session_fields (st : WorkflowState) (sessionID : String)
    (now : Time) (h : sessionID ≠ "") :
    ∃ stReuse stNew,
      UpdateStateWithSession (some st) sessionID false now = some stReuse ∧
      UpdateStateWithSession (some st) sessionID true now = some stNew ∧
      stReuse.sessionID = some sessionID ∧
      stReuse.sessionReuseCount = st.sessionReuseCount + 1 ∧
      stReuse.sessionCreatedAt = st.sessionCreatedAt ∧
      stNew.sessionID = some sessionID ∧
      stNew.sessionCreatedAt = some now ∧
      stNew.sessionReuseCount = 0 ∧
      stReuse.name = st.name ∧ stReuse.currentPhase = st.currentPhase ∧
      stReuse.worktreePath = st.worktreePath ∧
      stNew.name = st.name ∧ stNew.currentPhase = st.currentPhase ∧
      stNew.worktreePath = st.worktreePath := by
  refine ⟨{ st with sessionID := some sessionID,
                    sessionReuseCount := st.sessionReuseCount + 1 },
          { st with sessionID := some sessionID, sessionCreatedAt := some now,
                    sessionReuseCount := 0 },
          ?_, ?_, rfl, rfl, rfl, rfl, rfl, rfl, rfl, rfl, rfl, rfl, rfl, rfl⟩ <;>
    simp [UpdateStateWithSession, h]

/-- Witness for C7 at a concrete state and session id. -/
theorem updateStateWithSession_session_fields_witness :
    ∃ stReuse stNew,
      UpdateStateWithSession
          (some ⟨"wf", Phase.planning, "/tmp/wt", some "old", some 5, 2⟩) "sid" false 9 =
        some stReuse ∧
      UpdateStateWithSession
          (some ⟨"wf", Phase.planning, "/tmp/wt", some "old", some 5, 2⟩) "sid" true 9 =
        some stNew ∧
      stReuse.sessionID = some "sid" ∧
      stReuse.sessionReuseCount = 2 + 1 ∧
      stReuse.sessionCreatedAt = some 5 ∧
      stNew.sessionID = some "sid" ∧
      stNew.sessionCreatedAt = some 9 ∧
      stNew.sessionReuseCount = 0 ∧
      stReuse.name = "wf" ∧ stReuse.currentPhase = Phase.planning ∧
      stReuse.worktreePath = "/tmp/wt" ∧
      stNew.name = "wf" ∧ stNew.currentPhase = Phase.planning ∧
      stNew.worktreePath = "/tmp/wt" :=
  updateStateWithSession_session_fields
    ⟨"wf", Phase.planning, "/tmp/wt", some "old", some 5, 2⟩ "sid" 9 (by decide)

/-- C10: with a nil state or an empty session id, `UpdateStateWithSession` is a
no-op: the state, every field included, is returned unchanged. -/
theorem updateStateWithSession_noop (state : Option WorkflowState) (sessionID : String)
    (isNew : Bool) (now : Time) (h : state = none ∨ sessionID = "") :
    UpdateStateWithSession state sessionID isNew now = state := by
  cases state with
  | none => rfl
  | some st =>
    rcases h with h | h
    · exact absurd h (by simp)
    · simp [UpdateStateWithSession, h]

/-- Witness for C10 at a concrete state with an empty session id. -/
theorem updateStateWithSession_noop_witness :
    UpdateStateWithSession
        (some ⟨"wf", Phase.implementation, "/tmp/wt", some "sid", some 3, 1⟩) "" true 7 =
      some ⟨"wf", Phase.implementation, "/tmp/wt", some "sid", some 3, 1⟩ :=
  updateStateWithSession_noop
    (some ⟨"wf", Phase.implementation, "/tmp/wt", some "sid", some 3, 1⟩) "" true 7
    (Or.inr rfl)

/-! ## Orchestrator confirmation transition -/

/-- Modelled from the spec: the orchestrator code handling the confirmation
callback is not among the sources (only its tests and callers are). Spec
section 4.1: the callback returns `(approve, feedback, err)`; a non-nil error
is fatal, approval advances to IMPLEMENTATION, rejection with non-empty
feedback re-enters PLANNING, and rejection without feedback surfaces as
FAILED. -/
def nextPhaseAfterConfirmation (approve : Bool) (feedback : String)
    (err : Option String) : Phase :=
  match err with
  | some _ => Phase.failed
  | none =>
    if approve then Phase.implementation
    else if feedback ≠ "" then Phase.planning
    else Phase.failed

/-- C4: when the confirmation callback returns `(false, "", nil)` the workflow
transitions to FAILED, and that transition is not a silent re-entry into
PLANNING. -/
theorem confirmation_denied_without_feedback_fails :
    nextPhaseAfterConfirmation false "" none = Phase.failed ∧
    nextPhaseAfterConfirmation false "" none ≠ Phase.planning := by
  decide

/-! ## CIMonitor: `parseCIOutput` and `filterE2EFailures`

The bodies of `parseCIOutput` and `filterE2EFailures` are not among the
sources; only their test suites are. They are modelled from the spec
(section 4.5) and checked against the expectations of those tests. String
processing is done on `List Char` so every definition evaluates inside the
kernel. -/

/-- Go `strings.Split` on a single separator character: always returns at
least one (possibly empty) piece. -/
def splitOnChar (sep : Char) : List Char → List (List Char)
  | [] => [[]]
  | c :: rest =>
    if c = sep then [] :: splitOnChar sep rest
    else
      match splitOnChar sep rest with
      | piece :: pieces => (c :: piece) :: pieces
      | [] => [[c]]

/-- Accumulator pass behind `wordsOf`. -/
def wordsAux : List Char → List Char → List (List Char)
  | [], acc => if acc.isEmpty then [] else [acc.reverse]
  | c :: rest, acc =>
    if c.isWhitespace then
      if acc.isEmpty then wordsAux rest []
      else acc.reverse :: wordsAux rest []
    else wordsAux rest (c :: acc)

/-- Go `strings.Fields`: the maximal whitespace-free words of a line. -/
def wordsOf (cs : List Char) : List (List Char) := wordsAux cs []

/-- Go `strings.TrimSpace` on a character list. -/
def trimChars (cs : List Char) : List Char :=
  ((cs.dropWhile Char.isWhitespace).reverse.dropWhile Char.isWhitespace).reverse

/-- Joins words with single spaces (Go `strings.Join(fields, " ")`), the
whitespace normalization applied to job names. -/
def joinWithSpace : List (List Char) → List Char
  | [] => []
  | [w] => w
  | w :: w2 :: rest => w ++ ' ' :: joinWithSpace (w2 :: rest)

/-- The three per-line classifications of a CI check line. -/
inductive CIStatusKind where
  | pass
  | fail
  | pending
deriving DecidableEq, Repr

/-- Modelled from the spec: the status-marker vocabulary of `parseCIOutput`
(spec section 4.5): symbols or words for pass, fail and pending. -/
def classifyToken (tok : List Char) : Option CIStatusKind :=
  if tok = "✓".data ∨ tok = "pass".data ∨ tok = "success".data then
    some CIStatusKind.pass
  else if tok = "✗".data ∨ tok = "fail".data ∨ tok = "failure".data then
    some CIStatusKind.fail
  else if tok = "○".data ∨ tok = "*".data ∨ tok = "pending".data ∨
      tok = "queued".data ∨ tok = "in_progress".data then
    some CIStatusKind.pending
  else
    none

/-- Modelled from the spec: per-line classification of `parseCIOutput`
(spec section 4.5, lines are tab- or whitespace-separated). A tab-separated
line (`gh pr checks` table format) carries the job name in its first column
and the status token in its second; a whitespace-separated line carries the
status marker first and the job name after it. Lines without both a
recognized token and a job name are skipped, as the test expectations for
one-field lines require. Job names are whitespace-normalized. -/
def classifyLine (line : List Char) : Option (CIStatusKind × String) :=
  if line.contains '\t' then
    match splitOnChar '\t' line with
    | name :: status :: _ =>
      match classifyToken (trimChars status) with
      | some kind => some (kind, String.mk (joinWithSpace (wordsOf name)))
      | none => none
    | _ => none
  else
    match wordsOf line with
    | tok :: rest =>
      if rest.isEmpty then none
      else
        match classifyToken tok with
        | some kind => some (kind, String.mk (joinWithSpace rest))
        | none => none
    | [] => none

/-- The running state of the line scan inside `parseCIOutput`. -/
structure CIScanState where
  hasPending : Bool
  hasFailure : Bool
  failedJobs : List String
  classified : Nat
deriving DecidableEq, Repr

/-- One step of the scan: pass lines only count, failed lines are recorded in
order, pending lines raise the pending flag. -/
def ciScanStep (st : CIScanState) (line : List Char) : CIScanState :=
  match classifyLine line with
  | none => st
  | some (CIStatusKind.pass, _) => { st with classified := st.classified + 1 }
  | some (CIStatusKind.fail, name) =>
    { st with hasFailure := true, failedJobs := st.failedJobs ++ [name],
              classified := st.classified + 1 }
  | some (CIStatusKind.pending, _) =>
    { st with hasPending := true, classified := st.classified + 1 }

/-- Modelled from the spec: `parseCIOutput` (spec section 4.5). Output is split
into lines; each line is classified; overall status is pending when any line
is pending or when no line was classified at all (the tests require pending
for empty and whitespace-only output), failure when at least one line failed
and none is pending, success otherwise; the failed job names are returned in
order. -/
def parseCIOutput (output : String) : String × List String :=
  let lines := splitOnChar '\n' output.data
  let st := lines.foldl ciScanStep ⟨false, false, [], 0⟩
  if st.classified = 0 then ("pending", [])
  else if st.hasPending then ("pending", st.failedJobs)
  else if st.hasFailure then ("failure", st.failedJobs)
  else ("success", st.failedJobs)

/-- The classified lines of a CI output, in order. -/
def ciClassifiedLines (output : String) : List (CIStatusKind × String) :=
  (splitOnChar '\n' output.data).filterMap classifyLine

/-- Declarative overall status: pending dominates, then failure, then success;
pending when nothing was classified. -/
def ciOverallStatus (output : String) : String :=
  let ls := ciClassifiedLines output
  if ls.isEmpty then "pending"
  else if ls.any (fun l => l.1 == CIStatusKind.pending) then "pending"
  else if ls.any (fun l => l.1 == CIStatusKind.fail) then "failure"
  else "success"

/-- Declarative failed-jobs list: whitespace-normalized names of the failed
lines, in order. -/
def ciFailedJobNames (output : String) : List String :=
  ((ciClassifiedLines output).filter (fun l => l.1 == CIStatusKind.fail)).map Prod.snd

/-- The overall status exactly as claim C2 words it: every non-empty line is
classified by its status marker (its first whitespace-separated field);
pending if any line is pending, failure if none pending and one failed,
success otherwise, and pending when the output is empty. -/
def c2ClaimStatus (output : String) : String :=
  if output = "" then "pending"
  else
    let ks := (splitOnChar '\n' output.data).filterMap fun line =>
      match wordsOf line with
      | tok :: _ => classifyToken tok
      | [] => none
    if ks.any (fun k => k == CIStatusKind.pending) then "pending"
    else if ks.any (fun k => k == CIStatusKind.fail) then "failure"
    else "success"

/-- C2 counterexample: the output consisting of the single line `✓` has a
non-empty line whose status marker is a pass, so the claimed rules yield
`success`; `parseCIOutput`, as pinned down by its tests (a one-field line is
not a classifiable check line, and an output with no classified lines is
pending), returns `pending`. -/
theorem parseCIOutput_lone_marker_counterexample :
    parseCIOutput "✓" = ("pending", []) ∧
    c2ClaimStatus "✓" = "success" ∧
    ("pending" : String) ≠ "success" := by
  decide

/-- Scan-state characterization of the fold inside `parseCIOutput`. -/
theorem ciScan_foldl (lines : List (List Char)) (st : CIScanState) :
    lines.foldl ciScanStep st =
      ⟨st.hasPending ||
          ((lines.filterMap classifyLine).any fun l => l.1 == CIStatusKind.pending),
        st.hasFailure ||
          ((lines.filterMap classifyLine).any fun l => l.1 == CIStatusKind.fail),
        st.failedJobs ++
          (((lines.filterMap classifyLine).filter
              fun l => l.1 == CIStatusKind.fail).map Prod.snd),
        st.classified + (lines.filterMap classifyLine).length⟩ := by
  induction lines generalizing st with
  | nil => simp
  | cons line rest ih =>
    simp only [List.foldl_cons, List.filterMap_cons]
    cases h : classifyLine line with
    | none =>
      have hstep : ciScanStep st line = st := by simp [ciScanStep, h]
      rw [hstep, ih]
    | some kl =>
      obtain ⟨k, name⟩ := kl
      cases k with
      | pass =>
        have hstep : ciScanStep st line = { st with classified := st.classified + 1 } := by
          simp [ciScanStep, h]
        have h1 : (CIStatusKind.pass == CIStatusKind.pending) = false := by decide
        have h2 : (CIStatusKind.pass == CIStatusKind.fail) = false := by decide
        rw [hstep, ih]
        simp [CIScanState.mk.injEq, h1, h2, Nat.add_assoc, Nat.add_comm, Nat.add_left_comm]
      | fail =>
        have hstep : ciScanStep st line =
            { st with hasFailure := true, failedJobs := st.failedJobs ++ [name],
                      classified := st.classified + 1 } := by
          simp [ciScanStep, h]
        have h1 : (CIStatusKind.fail == CIStatusKind.pending) = false := by decide
        have h2 : (CIStatusKind.fail == CIStatusKind.fail) = true := by decide
        rw [hstep, ih]
        simp [CIScanState.mk.injEq, h1, h2, Nat.add_assoc, Nat.add_comm, Nat.add_left_comm,
          List.append_assoc]
      | pending =>
        have hstep : ciScanStep st line =
            { st with hasPending := true, classified := st.classified + 1 } := by
          simp [ciScanStep, h]
        have h1 : (CIStatusKind.pending == CIStatusKind.pending) = true := by decide
        have h2 : (CIStatusKind.pending == CIStatusKind.fail) = false := by decide
        rw [hstep, ih]
        simp [CIScanState.mk.injEq, h1, h2, Nat.add_assoc, Nat.add_comm, Nat.add_left_comm]

/-- Collation step shared by the scan and the declarative reading: once the
classified lines are known, both produce the same status and failed-jobs
pair. -/
theorem ciCollate_eq (cls : List (CIStatusKind × String)) :
    (if cls.length = 0 then (("pending" : String), ([] : List String))
     else if cls.any (fun l => l.1 == CIStatusKind.pending) then
       ("pending", (cls.filter fun l => l.1 == CIStatusKind.fail).map Prod.snd)
     else if cls.any (fun l => l.1 == CIStatusKind.fail) then
       ("failure", (cls.filter fun l => l.1 == CIStatusKind.fail).map Prod.snd)
     else ("success", (cls.filter fun l => l.1 == CIStatusKind.fail).map Prod.snd)) =
    ((if cls.isEmpty then "pending"
      else if cls.any (fun l => l.1 == CIStatusKind.pending) then "pending"
      else if cls.any (fun l => l.1 == CIStatusKind.fail) then "failure"
      else "success"),
     (cls.filter fun l => l.1 == CIStatusKind.fail).map Prod.snd) := by
  cases cls with
  | nil => simp
  | cons hd tl =>
    have hlen : ((hd :: tl).length = 0) = False := by simp
    have hie : ((hd :: tl).isEmpty = true) = False := by simp
    simp only [hlen, hie, if_false]
    by_cases hp : ((hd :: tl).any fun l => l.1 == CIStatusKind.pending) = true
    · simp [hp]
    · simp only [Bool.not_eq_true] at hp
      by_cases hf : ((hd :: tl).any fun l => l.1 == CIStatusKind.fail) = true
      · simp [hp, hf]
      · simp only [Bool.not_eq_true] at hf
        simp [hp, hf]

/-- C2 (amended): `parseCIOutput` classifies the lines carrying both a status
token and a job name (second tab column, or leading whitespace-separated
marker), returns pending when any classified line is pending or when no line
was classified (in particular for empty output), failure when none is pending
and at least one failed, success otherwise, and the failed-jobs list holds
the whitespace-normalized names of the failed lines in order. -/
theorem parseCIOutput_spec (output : String) :
    parseCIOutput output = (ciOverallStatus output, ciFailedJobNames output) := by
  simp only [parseCIOutput, ciOverallStatus, ciFailedJobNames, ciClassifiedLines]
  rw [ciScan_foldl]
  simp only [Bool.false_or, List.nil_append, Nat.zero_add]
  exact ciCollate_eq (List.filterMap classifyLine (splitOnChar '\n' output.data))

/-! ### `filterE2EFailures` -/

/-- The CI check result, from the spec data model (section 3). -/
structure CIResult where
  passed : Bool
  status : String
  failedJobs : List String
  output : String
deriving DecidableEq, Repr

/-- Modelled from the spec: `filterE2EFailures` (spec section 4.5). The Go
`regexp.Compile(pattern)` outcome is abstracted as `Option (String → Bool)`:
`none` when the pattern is not a valid regular expression (the filter is then
a no-op), `some isMatch` for the compiled matcher. Failed jobs whose name
matches are removed; if nothing remains, `passed` is flipped to true while
`status` and `output` stay untouched. -/
def filterE2EFailures (result : CIResult) (compiledPattern : Option (String → Bool)) :
    CIResult :=
  match compiledPattern with
  | none => result
  | some isMatch =>
    let remaining := result.failedJobs.filter fun name => !(isMatch name)
    { result with
        failedJobs := remaining,
        passed := if remaining.isEmpty then true else result.passed }

/-- C3: with a valid pattern, exactly the matching job names are removed, the
status and output fields are untouched, and when every failed job matches the
pattern the filtered result has `passed = true` and no failed jobs while the
status stays as it was (in particular `failure` stays `failure`). -/
theorem filterE2EFailures_spec (result : CIResult) (isMatch : String → Bool) :
    (filterE2EFailures result (some isMatch)).failedJobs =
      result.failedJobs.filter (fun name => !(isMatch name)) ∧
    (filterE2EFailures result (some isMatch)).status = result.status ∧
    (filterE2EFailures result (some isMatch)).output = result.output ∧
    ((∀ name ∈ result.failedJobs, isMatch name = true) →
      (filterE2EFailures result (some isMatch)).passed = true ∧
      (filterE2EFailures result (some isMatch)).failedJobs = []) := by
  refine ⟨rfl, rfl, rfl, fun hall => ?_⟩
  have hnil : result.failedJobs.filter (fun name => !(isMatch name)) = [] := by
    rw [List.filter_eq_nil_iff]
    intro a ha
    simp [hall a ha]
  constructor
  · simp [filterE2EFailures, hnil]
  · simpa [filterE2EFailures] using hnil

/-- Witness for C3: a failure result whose failed jobs all match the pattern
comes back with `passed = true`, no failed jobs, and status still `failure`. -/
theorem filterE2EFailures_spec_witness :
    (filterE2EFailures ⟨false, "failure", ["e2e-api", "e2e-db"], "boom"⟩
        (some fun name => name == "e2e-api" || name == "e2e-db")).passed = true ∧
    (filterE2EFailures ⟨false, "failure", ["e2e-api", "e2e-db"], "boom"⟩
        (some fun name => name == "e2e-api" || name == "e2e-db")).failedJobs = [] ∧
    (filterE2EFailures ⟨false, "failure", ["e2e-api", "e2e-db"], "boom"⟩
        (some fun name => name == "e2e-api" || name == "e2e-db")).status = "failure" := by
  have h := filterE2EFailures_spec ⟨false, "failure", ["e2e-api", "e2e-db"], "boom"⟩
    (fun name => name == "e2e-api" || name == "e2e-db")
  refine ⟨(h.2.2.2 ?_).1, (h.2.2.2 ?_).2, h.2.1⟩ <;> decide

/-- C5: an invalid pattern (a `regexp.Compile` error) makes the filter a
no-op: the result comes back unchanged in every field. -/
theorem filterE2EFailures_invalid_pattern_noop (result : CIResult) :
    filterE2EFailures result none = result := rfl

/-! ## AgentExecutor: tool input summaries -/

/-- Modelled from the spec: `extractToolInputSummary` (spec section 4.3) is not
among the sources, only its test table is. The raw tool input is the decode
outcome of the JSON message: `none` for a nil input, `some none` for
malformed JSON, `some (some obj)` for a decoded object. Read, Edit and Write
summarize by `file_path`; Glob and Grep by `pattern`; Bash by `command`; Task
by `description`; anything else, and any missing field, yields the empty
string. -/
def extractToolInputSummary (toolName : String) (input : Option (Option Chunk)) : String :=
  match input with
  | none => ""
  | some none => ""
  | some (some obj) =>
    if toolName = "Read" ∨ toolName = "Edit" ∨ toolName = "Write" then
      getStringField obj "file_path"
    else if toolName = "Glob" ∨ toolName = "Grep" then
      getStringField obj "pattern"
    else if toolName = "Bash" then
      getStringField obj "command"
    else if toolName = "Task" then
      getStringField obj "description"
    else
      ""

/-- C8: the summary is the `file_path` field for Read, Edit and Write, the
`pattern` field for Glob and Grep, the `command` field for Bash and the
`description` field for Task; any other tool name, a nil input, malformed
JSON, or a missing expected field all yield the empty string. -/
theorem extractToolInputSummary_spec (toolName : String) (obj : Chunk) :
    extractToolInputSummary "Read" (some (some obj)) = getStringField obj "file_path" ∧
    extractToolInputSummary "Edit" (some (some obj)) = getStringField obj "file_path" ∧
    extractToolInputSummary "Write" (some (some obj)) = getStringField obj "file_path" ∧
    extractToolInputSummary "Glob" (some (some obj)) = getStringField obj "pattern" ∧
    extractToolInputSummary "Grep" (some (some obj)) = getStringField obj "pattern" ∧
    extractToolInputSummary "Bash" (some (some obj)) = getStringField obj "command" ∧
    extractToolInputSummary "Task" (some (some obj)) = getStringField obj "description" ∧
    (toolName ∉ ["Read", "Edit", "Write", "Glob", "Grep", "Bash", "Task"] →
      extractToolInputSummary toolName (some (some obj)) = "") ∧
    extractToolInputSummary toolName none = "" ∧
    extractToolInputSummary toolName (some none) = "" ∧
    (∀ key, obj.lookup key = none → getStringField obj key = "") := by
  refine ⟨rfl, rfl, rfl, rfl, rfl, rfl, rfl, fun hother => ?_, rfl, rfl, fun key hk => ?_⟩
  · simp only [List.mem_cons, List.not_mem_nil, or_false, not_or] at hother
    obtain ⟨h1, h2, h3, h4, h5, h6, h7⟩ := hother
    simp [extractToolInputSummary, h1, h2, h3, h4, h5, h6, h7]
  · simp [getStringField, hk]

/-- Witness for C8 at an unknown tool name and a concrete object. -/
theorem extractToolInputSummary_spec_witness :
    extractToolInputSummary "UnknownTool"
        (some (some [("some_field", JVal.str "value")])) = "" ∧
    extractToolInputSummary "Read" (some (some [("file_path", JVal.str "/home/user/test.go")]))
      = getStringField [("file_path", JVal.str "/home/user/test.go")] "file_path" :=
  ⟨((extractToolInputSummary_spec "UnknownTool"
        [("some_field", JVal.str "value")]).2.2.2.2.2.2.2.1) (by decide),
    (extractToolInputSummary_spec "UnknownTool"
        [("file_path", JVal.str "/home/user/test.go")]).1⟩

/-! ## Workflow summary formatting

Two sources implement the same four formatting functions: `summary.go` builds
the output with a `strings.Builder` (a sequence of `WriteString` calls,
modelled as a list of chunks joined at the end), while the other copy builds
it with string concatenation (`result += ...`). The color helpers `Bold`,
`Cyan`, `Green`, `Red`, `Yellow` and `FormatDuration` are shared by both and
are abstracted as a `Style` record of arbitrary functions. Both copies call
the same `fmt.Sprintf` patterns, factored here into shared line helpers. -/

/-- PR identification data, from the spec data model (section 3). -/
structure PRInfo where
  number : Int
  url : String
  title : String
  branch : String
deriving DecidableEq, Repr

/-- The PR shape of a finished workflow: none, a single PR, or a split PR. -/
inductive PRSummaryType where
  | noPR
  | single
  | split
deriving DecidableEq, Repr

/-- Per-phase display statistics. -/
structure PhaseStats where
  name : String
  success : Bool
  attempts : Int
  duration : Int
deriving DecidableEq, Repr

/-- The aggregated workflow summary displayed at the end of a run. -/
structure WorkflowSummary where
  workflowName : String
  prType : PRSummaryType
  mainPR : Option PRInfo
  childPRs : List PRInfo
  filesChanged : List String
  linesAdded : Int
  linesRemoved : Int
  testsAdded : Int
  phases : List PhaseStats
  totalDuration : Int
deriving DecidableEq, Repr

/-- The color and duration helpers (`Bold`, `Cyan`, `Green`, `Red`, `Yellow`,
`FormatDuration`) used identically by both formatter copies. -/
structure Style where
  bold : String → String
  cyan : String → String
  green : String → String
  red : String → String
  yellow : String → String
  formatDuration : Int → String

/-- Go constant `summaryHeaderSep`: a run of 51 identical box-drawing
characters, built here by replication so the value is stated once. -/
def summaryHeaderSep : String := String.mk (List.replicate 51 '═')

/-- The header separator with its trailing newline; the concatenation source
inlines this as a single string literal. -/
def headerSepLine : String := summaryHeaderSep ++ "\n"

/-- Sprintf `"  Main PR: %s - %s\n"` with the cyan PR number and the title. -/
def mainPRLine (style : Style) (pr : PRInfo) : String :=
  "  Main PR: " ++ style.cyan ("#" ++ toString pr.number) ++ " - " ++ pr.title ++ "\n"

/-- Sprintf `"          %s\n"` with the cyan URL (single-PR branch). -/
def singlePRURLLine (style : Style) (pr : PRInfo) : String :=
  "          " ++ style.cyan pr.url ++ "\n"

/-- Sprintf `"          %s\n\n"` with the cyan URL (split-PR branch). -/
def splitPRURLLine (style : Style) (pr : PRInfo) : String :=
  "          " ++ style.cyan pr.url ++ "\n\n"

/-- Sprintf `"    • %s - %s\n"` for one child PR. -/
def childPRLine (style : Style) (pr : PRInfo) : String :=
  "    • " ++ style.cyan ("#" ++ toString pr.number) ++ " - " ++ pr.title ++ "\n"

/-- Sprintf `"      %s\n"` with the cyan child PR URL. -/
def childPRURLLine (style : Style) (pr : PRInfo) : String :=
  "      " ++ style.cyan pr.url ++ "\n"

/-- Sprintf `"  Files Changed: %s\n"` with the green count. -/
def statsFilesLine (style : Style) (s : WorkflowSummary) : String :=
  "  Files Changed: " ++ style.green (toString s.filesChanged.length) ++ "\n"

/-- Sprintf `"  Lines Added:   %s\n"` with the green `+%d`. -/
def statsAddedLine (style : Style) (s : WorkflowSummary) : String :=
  "  Lines Added:   " ++ style.green ("+" ++ toString s.linesAdded) ++ "\n"

/-- Sprintf `"  Lines Removed: %s\n"` with the uncolored `-%d`. -/
def statsRemovedLine (s : WorkflowSummary) : String :=
  "  Lines Removed: " ++ ("-" ++ toString s.linesRemoved) ++ "\n"

/-- Sprintf `"  Tests Added:   %s\n"` with the green count. -/
def statsTestsLine (style : Style) (s : WorkflowSummary) : String :=
  "  Tests Added:   " ++ style.green (toString s.testsAdded) ++ "\n"

/-- One line of the phase execution table: Sprintf `"  %s %s    %s (%s)\n"`
with the status icon, the phase name, the yellow duration and the attempt
count. -/
def phaseLine (style : Style) (p : PhaseStats) : String :=
  let statusIcon := if p.success then style.green "✓" else style.red "✗"
  let attemptStr := if p.attempts > 1 then toString p.attempts ++ " attempts" else "1 attempt"
  "  " ++ statusIcon ++ " " ++ p.name ++ "    " ++
    style.yellow (style.formatDuration p.duration) ++ " (" ++ attemptStr ++ ")\n"

/-- The final `b.String()` of a `strings.Builder`: the concatenation of the
chunks passed to `WriteString`, in order. -/
def buildString : List String → String
  | [] => ""
  | s :: rest => s ++ buildString rest

/-- Go `formatPRSection` from `summary.go` (strings.Builder implementation). -/
def formatPRSectionBuilder (style : Style) (summary : Option WorkflowSummary) : String :=
  match summary with
  | none => ""
  | some s =>
    if s.prType = PRSummaryType.noPR then ""
    else
      let b : List String := []
      let b := b ++ [style.bold "Pull Requests:"]
      let b := b ++ ["\n"]
      let b :=
        match s.prType with
        | PRSummaryType.single =>
          match s.mainPR with
          | some pr => b ++ [mainPRLine style pr] ++ [singlePRURLLine style pr]
          | none => b
        | PRSummaryType.split =>
          let b :=
            match s.mainPR with
            | some pr => b ++ [mainPRLine style pr] ++ [splitPRURLLine style pr]
            | none => b
          if s.childPRs.length > 0 then
            s.childPRs.foldl
              (fun acc pr => acc ++ [childPRLine style pr] ++ [childPRURLLine style pr])
              (b ++ ["  Child PRs:\n"])
          else b
        | PRSummaryType.noPR => b
      buildString b

/-- Go `formatPRSection` from the second source (string concatenation). -/
def formatPRSectionConcat (style : Style) (summary : Option WorkflowSummary) : String :=
  match summary with
  | none => ""
  | some s =>
    if s.prType = PRSummaryType.noPR then ""
    else
      let result := style.bold "Pull Requests:" ++ "\n"
      let result :=
        match s.prType with
        | PRSummaryType.single =>
          match s.mainPR with
          | some pr => result ++ mainPRLine style pr ++ singlePRURLLine style pr
          | none => result
        | PRSummaryType.split =>
          let result :=
            match s.mainPR with
            | some pr => result ++ mainPRLine style pr ++ splitPRURLLine style pr
            | none => result
          if s.childPRs.length > 0 then
            s.childPRs.foldl
              (fun acc pr => acc ++ childPRLine style pr ++ childPRURLLine style pr)
              (result ++ "  Child PRs:\n")
          else result
        | PRSummaryType.noPR => result
      result

/-- Go `formatStatsSection` from `summary.go` (strings.Builder implementation). -/
def formatStatsSectionBuilder (style : Style) (summary : Option WorkflowSummary) : String :=
  match summary with
  | none => ""
  | some s =>
    if s.filesChanged.length = 0 ∧ s.linesAdded = 0 ∧ s.linesRemoved = 0 ∧
        s.testsAdded = 0 then ""
    else
      let b : List String := []
      let b := b ++ [style.bold "Implementation Stats:"]
      let b := b ++ ["\n"]
      let b := b ++ [statsFilesLine style s]
      let b := b ++ [statsAddedLine style s]
      let b := b ++ [statsRemovedLine s]
      let b := b ++ [statsTestsLine style s]
      buildString b

/-- Go `formatStatsSection` from the second source (string concatenation). -/
def formatStatsSectionConcat (style : Style) (summary : Option WorkflowSummary) : String :=
  match summary with
  | none => ""
  | some s =>
    if s.filesChanged.length = 0 ∧ s.linesAdded = 0 ∧ s.linesRemoved = 0 ∧
        s.testsAdded = 0 then ""
    else
      let result := style.bold "Implementation Stats:" ++ "\n"
      let result := result ++ statsFilesLine style s
      let result := result ++ statsAddedLine style s
      let result := result ++ statsRemovedLine s
      let result := result ++ statsTestsLine style s
      result

/-- Go `formatPhaseTimings` from `summary.go` (strings.Builder implementation). -/
def formatPhaseTimingsBuilder (style : Style) (summary : Option WorkflowSummary) : String :=
  match summary with
  | none => ""
  | some s =>
    if s.phases.length = 0 then ""
    else
      let b : List String := []
      let b := b ++ [style.bold "Phase Execution:"]
      let b := b ++ ["\n"]
      buildString (s.phases.foldl (fun acc p => acc ++ [phaseLine style p]) b)

/-- Go `formatPhaseTimings` from the second source (string concatenation). -/
def formatPhaseTimingsConcat (style : Style) (summary : Option WorkflowSummary) : String :=
  match summary with
  | none => ""
  | some s =>
    if s.phases.length = 0 then ""
    else
      let result := style.bold "Phase Execution:" ++ "\n"
      s.phases.foldl (fun acc p => acc ++ phaseLine style p) result

/-- Go `formatWorkflowSummary` from `summary.go`: writes the header, the three
optional sections (each skipped when empty, each followed by a blank line)
and the total duration through a `strings.Builder`. -/
def formatWorkflowSummaryBuilder (style : Style) (summary : Option WorkflowSummary) : String :=
  match summary with
  | none => ""
  | some s =>
    let b : List String := []
    let b := b ++ [summaryHeaderSep]
    let b := b ++ ["\n"]
    let b := b ++ [style.bold "Workflow Summary: "]
    let b := b ++ [s.workflowName]
    let b := b ++ ["\n"]
    let b := b ++ [summaryHeaderSep]
    let b := b ++ ["\n"]
    let b := b ++ ["\n"]
    let prSection := formatPRSectionBuilder style (some s)
    let b := if prSection ≠ "" then b ++ [prSection] ++ ["\n"] else b
    let statsSection := formatStatsSectionBuilder style (some s)
    let b := if statsSection ≠ "" then b ++ [statsSection] ++ ["\n"] else b
    let phaseTimings := formatPhaseTimingsBuilder style (some s)
    let b := if phaseTimings ≠ "" then b ++ [phaseTimings] ++ ["\n"] else b
    let b := b ++ [style.bold "Total Duration: "]
    let b := b ++ [style.yellow (style.formatDuration s.totalDuration)]
    let b := b ++ ["\n"]
    buildString b

/-- Go `formatWorkflowSummary` from the second source: the same layout built
with string concatenation; the header separator is inlined there as a
literal with its trailing newline. -/
def formatWorkflowSummaryConcat (style : Style) (summary : Option WorkflowSummary) : String :=
  match summary with
  | none => ""
  | some s =>
    let result := headerSepLine
    let result := result ++ style.bold "Workflow Summary: " ++ s.workflowName ++ "\n"
    let result := result ++ headerSepLine
    let result := result ++ "\n"
    let prSection := formatPRSectionConcat style (some s)
    let result := if prSection ≠ "" then result ++ prSection ++ "\n" else result
    let statsSection := formatStatsSectionConcat style (some s)
    let result := if statsSection ≠ "" then result ++ statsSection ++ "\n" else result
    let phaseTimings := formatPhaseTimingsConcat style (some s)
    let result := if phaseTimings ≠ "" then result ++ phaseTimings ++ "\n" else result
    result ++ style.bold "Total Duration: " ++
      style.yellow (style.formatDuration s.totalDuration) ++ "\n"

/-- Joining two chunk lists concatenates their joins. -/
theorem buildString_append (l1 l2 : List String) :
    buildString (l1 ++ l2) = buildString l1 ++ buildString l2 := by
  induction l1 with
  | nil => simp [buildString, String.empty_append]
  | cons s rest ih => simp [buildString, ih, String.append_assoc]

/-- A builder loop writing two chunks per element joins to the concatenation
loop appending two strings per element. -/
theorem buildString_foldl_two {α : Type} (l : List α) (f g : α → String)
    (b : List String) :
    buildString (l.foldl (fun acc x => acc ++ [f x] ++ [g x]) b) =
      l.foldl (fun acc x => acc ++ f x ++ g x) (buildString b) := by
  induction l generalizing b with
  | nil => rfl
  | cons hd tl ih =>
    simp only [List.foldl_cons]
    rw [ih, buildString_append, buildString_append]
    simp [buildString, String.append_empty, String.append_assoc]

/-- A builder loop writing one chunk per element joins to the concatenation
loop appending one string per element. -/
theorem buildString_foldl_one {α : Type} (l : List α) (f : α → String)
    (b : List String) :
    buildString (l.foldl (fun acc x => acc ++ [f x]) b) =
      l.foldl (fun acc x => acc ++ f x) (buildString b) := by
  induction l generalizing b with
  | nil => rfl
  | cons hd tl ih =>
    simp only [List.foldl_cons]
    rw [ih, buildString_append]
    simp [buildString, String.append_empty]

/-- The two `formatPRSection` implementations agree. -/
theorem formatPRSection_eq (style : Style) (summary : Option WorkflowSummary) :
    formatPRSectionBuilder style summary = formatPRSectionConcat style summary := by
  cases summary with
  | none => rfl
  | some s =>
    simp only [formatPRSectionBuilder, formatPRSectionConcat]
    by_cases hn : s.prType = PRSummaryType.noPR
    · simp [hn]
    · simp only [hn, if_false]
      cases hpt : s.prType with
      | noPR => exact absurd hpt hn
      | single =>
        cases s.mainPR with
        | none => simp [buildString, String.append_empty]
        | some pr =>
          simp [buildString_append, buildString, String.append_empty, String.append_assoc]
      | split =>
        cases s.mainPR with
        | none =>
          by_cases hc : s.childPRs.length > 0
          · simp only [hc, if_true]
            rw [buildString_foldl_two]
            simp [buildString_append, buildString, String.append_empty, String.append_assoc]
          · simp [hc, buildString, String.append_empty]
        | some pr =>
          by_cases hc : s.childPRs.length > 0
          · simp only [hc, if_true]
            rw [buildString_foldl_two]
            simp [buildString_append, buildString, String.append_empty, String.append_assoc]
          · simp [hc, buildString_append, buildString, String.append_empty,
              String.append_assoc]

/-- The two `formatStatsSection` implementations agree. -/
theorem formatStatsSection_eq (style : Style) (summary : Option WorkflowSummary) :
    formatStatsSectionBuilder style summary = formatStatsSectionConcat style summary := by
  cases summary with
  | none => rfl
  | some s =>
    simp only [formatStatsSectionBuilder, formatStatsSectionConcat]
    by_cases hz : s.filesChanged.length = 0 ∧ s.linesAdded = 0 ∧ s.linesRemoved = 0 ∧
        s.testsAdded = 0
    · simp [hz]
    · simp [hz, buildString, String.append_empty, String.append_assoc]

/-- The two `formatPhaseTimings` implementations agree. -/
theorem formatPhaseTimings_eq (style : Style) (summary : Option WorkflowSummary) :
    formatPhaseTimingsBuilder style summary = formatPhaseTimingsConcat style summary := by
  cases summary with
  | none => rfl
  | some s =>
    simp only [formatPhaseTimingsBuilder, formatPhaseTimingsConcat]
    by_cases hz : s.phases.length = 0
    · simp [hz]
    · simp only [hz, if_false]
      rw [buildString_foldl_one]
      simp [buildString, String.append_empty]

/-- Bridging the chunk-split header of the builder with the inlined header
line of the concatenation source. -/
theorem c9HeaderOne (x : String) :
    summaryHeaderSep ++ ("\n" ++ x) = headerSepLine ++ x := by
  rw [← String.append_assoc]
  rfl

/-- C9: for every summary (nil included) and every choice of the shared color
and duration helpers, the strings.Builder implementation of
`formatWorkflowSummary` and its three section helpers return strings
identical to the string-concatenation implementation. -/
theorem formatWorkflowSummary_equiv (style : Style) (summary : Option WorkflowSummary) :
    formatWorkflowSummaryBuilder style summary = formatWorkflowSummaryConcat style summary ∧
    formatPRSectionBuilder style summary = formatPRSectionConcat style summary ∧
    formatStatsSectionBuilder style summary = formatStatsSectionConcat style summary ∧
    formatPhaseTimingsBuilder style summary = formatPhaseTimingsConcat style summary := by
  refine ⟨?_, formatPRSection_eq style summary, formatStatsSection_eq style summary,
    formatPhaseTimings_eq style summary⟩
  cases summary with
  | none => rfl
  | some s =>
    simp only [formatWorkflowSummaryBuilder, formatWorkflowSummaryConcat,
      formatPRSection_eq, formatStatsSection_eq, formatPhaseTimings_eq]
    by_cases h1 : formatPRSectionConcat style (some s) ≠ ""
    · by_cases h2 : formatStatsSectionConcat style (some s) ≠ ""
      · by_cases h3 : formatPhaseTimingsConcat style (some s) ≠ ""
        · simp [h1, h2, h3, buildString_append, buildString, String.append_empty,
            String.append_assoc]
          simp only [c9HeaderOne]
        · simp [h1, h2, h3, buildString_append, buildString, String.append_empty,
            String.append_assoc]
          simp only [c9HeaderOne]
      · by_cases h3 : formatPhaseTimingsConcat style (some s) ≠ ""
        · simp [h1, h2, h3, buildString_append, buildString, String.append_empty,
            String.append_assoc]
          simp only [c9HeaderOne]
        · simp [h1, h2, h3, buildString_append, buildString, String.append_empty,
            String.append_assoc]
          simp only [c9HeaderOne]
    · by_cases h2 : formatStatsSectionConcat style (some s) ≠ ""
      · by_cases h3 : formatPhaseTimingsConcat style (some s) ≠ ""
        · simp [h1, h2, h3, buildString_append, buildString, String.append_empty,
            String.append_assoc]
          simp only [c9HeaderOne]
        · simp [h1, h2, h3, buildString_append, buildString, String.append_empty,
            String.append_assoc]
          simp only [c9HeaderOne]
      · by_cases h3 : formatPhaseTimingsConcat style (some s) ≠ ""
        · simp [h1, h2, h3, buildString_append, buildString, String.append_empty,
            String.append_assoc]
          simp only [c9HeaderOne]
        · simp [h1, h2, h3, buildString_append, buildString, String.append_empty,
            String.append_assoc]
          simp only [c9HeaderOne]

end ClaudeWorkflow
